import Mathlib

/-!
Shallow embedding of src/cdp_platform.py (Intelligent Customer Data
Platform) and verification of its specification claims.

Modelling conventions:
* Python `datetime` values are modelled as integers counting seconds;
  `timedelta.days` (which floors toward negative infinity) is modelled
  with `Int.fdiv` by 86400.
* Python `float` is modelled as `Rat`; the claims are about the formulas,
  not about IEEE rounding.
* Python `dict` is modelled as an ordered association list with
  first-key lookup (`dictGet`), in-place update (`dictSet`) and key
  removal (`dictErase`); `dict` keys are unique so removal of all
  bindings of a key coincides with `del`.
* Python `set` is modelled as a duplicate-free list with insertion by
  `setInsert`; set equality is membership equality.
* Event payloads (`List[Dict[str, Any]]`) and attribute values are never
  inspected by any operation, only the event count is read, so payloads
  are modelled as opaque association lists of strings.
-/

namespace CDP

/-- Dictionary lookup: value of the first binding of key `k`, if any. -/
def dictGet {α : Type} (m : List (String × α)) (k : String) : Option α :=
  match m with
  | [] => none
  | (k', v) :: rest => if k' = k then some v else dictGet rest k

/-- Dictionary membership test, `k in m` in Python. -/
def dictContains {α : Type} (m : List (String × α)) (k : String) : Bool :=
  (dictGet m k).isSome

/-- Dictionary assignment `m[k] = v`: updates the first binding of `k`
in place, or appends a new binding (Python dicts preserve insertion
order and update in place). -/
def dictSet {α : Type} (m : List (String × α)) (k : String) (v : α) :
    List (String × α) :=
  match m with
  | [] => [(k, v)]
  | (k', v') :: rest =>
      if k' = k then (k, v) :: rest else (k', v') :: dictSet rest k v

/-- Dictionary deletion `del m[k]`: removes the bindings of `k`.
Since dictionaries built by the operations never carry a duplicate key,
removing every binding coincides with Python `del`. -/
def dictErase {α : Type} (m : List (String × α)) (k : String) :
    List (String × α) :=
  m.filter (fun p => p.1 ≠ k)

/-- Set insertion: add `a` unless already present (Python `set.add`). -/
def setInsert (s : List String) (a : String) : List String :=
  if a ∈ s then s else s ++ [a]

/-- Number of whole days between two timestamps, `(now - ts).days` in
Python: `timedelta.days` floors toward negative infinity, which is
`Int.fdiv` by the 86400 seconds of a day. -/
def daysBetween (now ts : Int) : Int :=
  (now - ts).fdiv 86400

/-- The enum `CustomerSegment` of cdp_platform.py. -/
inductive CustomerSegment where
  | HIGH_VALUE
  | AT_RISK
  | ACTIVE
  | DORMANT
  | NEW
deriving DecidableEq, Repr

/-- String value of each enum member (`segment.value` in the source). -/
def CustomerSegment.value : CustomerSegment → String
  | .HIGH_VALUE => "high_value"
  | .AT_RISK => "at_risk"
  | .ACTIVE => "active"
  | .DORMANT => "dormant"
  | .NEW => "new"

/-- Event payload: an open dictionary whose contents no operation
inspects; only the count of events is ever read. -/
abbrev EventRecord := List (String × String)

/-- The `Customer` dataclass of cdp_platform.py. -/
structure Customer where
  id : String
  email : String
  name : String
  attributes : List (String × String)
  events : List EventRecord
  segments : List CustomerSegment
  lifetime_value : Rat
  last_activity : Option Int
  created_at : Int
deriving DecidableEq, Repr

/-- State of `UnifiedProfileEngine`: the profile store and the identity
graph (canonical key to alias set). -/
structure UnifiedProfileEngine where
  profiles : List (String × Customer)
  identity_graph : List (String × List String)
deriving DecidableEq, Repr

/-- Canonical key derivation of `merge_identities`: the source computes
`hashlib.md5(email.encode()).hexdigest()`. The cryptographic hash is
modelled as an injective tagging of the email; every claim depends only
on the derivation being deterministic and distinct emails yielding
distinct keys (MD5 collisions are assumed absent on the inputs
considered). -/
def md5Hex (email : String) : String :=
  "md5:" ++ email

/-- The `merge_identities` method: derives the key from the email alone,
creates an empty alias set for it if missing, then unions in the three
aliases in order. -/
def merge_identities (e : UnifiedProfileEngine)
    (email user_id device_id : String) : UnifiedProfileEngine :=
  let key := md5Hex email
  let g :=
    if dictContains e.identity_graph key then e.identity_graph
    else dictSet e.identity_graph key []
  let s := (dictGet g key).getD []
  let s := setInsert (setInsert (setInsert s email) user_id) device_id
  { e with identity_graph := dictSet g key s }

/-- The `create_profile` method: stores the customer under its id and
returns the id (an upsert: an existing profile with the same id is
replaced). -/
def create_profile (e : UnifiedProfileEngine) (c : Customer) :
    UnifiedProfileEngine × String :=
  ({ e with profiles := dictSet e.profiles c.id c }, c.id)

/-- The read-only snapshot returned by `get_360_view` for a known id. -/
structure View where
  id : String
  email : String
  name : String
  lifetime_value : Rat
  segments : List String
  total_events : Nat
  last_activity : Option Int
  attributes : List (String × String)
deriving DecidableEq, Repr

/-- The `get_360_view` method: `none` models the empty dict returned for
an unknown id. -/
def get_360_view (e : UnifiedProfileEngine) (customer_id : String) :
    Option View :=
  (dictGet e.profiles customer_id).map fun c =>
    { id := c.id
      email := c.email
      name := c.name
      lifetime_value := c.lifetime_value
      segments := c.segments.map CustomerSegment.value
      total_events := c.events.length
      last_activity := c.last_activity
      attributes := c.attributes }

/-- Reverse segment index of `RealtimeSegmentation`: the dictionary
`self.segments` keyed by the five enum members. -/
structure SegmentIndex where
  high_value : List String
  at_risk : List String
  active : List String
  dormant : List String
  new : List String
deriving DecidableEq, Repr

/-- Lookup `self.segments[s]`. -/
def SegmentIndex.get (idx : SegmentIndex) : CustomerSegment → List String
  | .HIGH_VALUE => idx.high_value
  | .AT_RISK => idx.at_risk
  | .ACTIVE => idx.active
  | .DORMANT => idx.dormant
  | .NEW => idx.new

/-- Assignment `self.segments[s] = l`. -/
def SegmentIndex.put (idx : SegmentIndex) (s : CustomerSegment)
    (l : List String) : SegmentIndex :=
  match s with
  | .HIGH_VALUE => { idx with high_value := l }
  | .AT_RISK => { idx with at_risk := l }
  | .ACTIVE => { idx with active := l }
  | .DORMANT => { idx with dormant := l }
  | .NEW => { idx with new := l }

/-- The index as initialised by the constructor: every segment maps to
the empty list. -/
def SegmentIndex.empty : SegmentIndex :=
  { high_value := [], at_risk := [], active := [], dormant := [], new := [] }

/-- State of `RealtimeSegmentation` (the rule table is code, not
state, so only the reverse index is carried). -/
structure RealtimeSegmentation where
  segments : SegmentIndex
deriving DecidableEq, Repr

/-- The rule table `self.rules` of `RealtimeSegmentation.__init__`,
evaluated at clock `now`. A `None` last_activity is falsy in Python, so
the three rules guarded by `c.last_activity and ...` are false for an
absent last activity. -/
def ruleHolds (now : Int) (s : CustomerSegment) (c : Customer) : Bool :=
  match s with
  | .HIGH_VALUE => c.lifetime_value > 10000
  | .AT_RISK =>
      match c.last_activity with
      | some la => daysBetween now la > 30
      | none => false
  | .DORMANT =>
      match c.last_activity with
      | some la => daysBetween now la > 90
      | none => false
  | .NEW => daysBetween now c.created_at < 30
  | .ACTIVE =>
      match c.last_activity with
      | some la => daysBetween now la < 7
      | none => false

/-- Iteration order of `self.rules.items()` in `segment_customer`:
Python dicts iterate in insertion order. -/
def ruleOrder : List CustomerSegment :=
  [.HIGH_VALUE, .AT_RISK, .DORMANT, .NEW, .ACTIVE]

/-- One iteration of the loop body of `segment_customer`: if the rule
holds, append the segment to the customer and append the id to the
reverse index unless already present. -/
def segStep (now : Int) (s : CustomerSegment)
    (st : RealtimeSegmentation × Customer) : RealtimeSegmentation × Customer :=
  let (eng, c) := st
  if ruleHolds now s c then
    let eng :=
      if c.id ∈ eng.segments.get s then eng
      else { segments := eng.segments.put s (eng.segments.get s ++ [c.id]) }
    (eng, { c with segments := c.segments ++ [s] })
  else (eng, c)

/-- The `segment_customer` method: clears `customer.segments`, then runs
the loop over the rule table in insertion order, mutating both the
customer and the reverse index. -/
def segment_customer (now : Int) (eng : RealtimeSegmentation)
    (c : Customer) : RealtimeSegmentation × Customer :=
  ruleOrder.foldl (fun st s => segStep now s st)
    (eng, { c with segments := [] })

/-- State of `PredictiveAnalytics`: per-customer metric dictionary. -/
structure PredictiveAnalytics where
  predictions : List (String × List (String × Rat))
deriving DecidableEq, Repr

/-- Churn score formula of `predict_churn`: `min(1.0, days_inactive /
90.0)` when last_activity is present, else the initial `0.0`. -/
def churnScore (now : Int) (c : Customer) : Rat :=
  match c.last_activity with
  | some la => min 1 ((daysBetween now la : Rat) / 90)
  | none => 0

/-- The `predict_churn` method: computes the score and REPLACES the
whole per-customer record with a singleton churn_risk dictionary
(`self.predictions[customer.id] = ...`). -/
def predict_churn (now : Int) (p : PredictiveAnalytics) (c : Customer) :
    PredictiveAnalytics × Rat :=
  let score := churnScore now c
  ({ predictions := dictSet p.predictions c.id [("churn_risk", score)] },
   score)

/-- LTV formula of `predict_ltv`:
`lifetime_value * (1 + len(events)/100.0) * 1.2`. -/
def ltvScore (c : Customer) : Rat :=
  c.lifetime_value * (1 + (c.events.length : Rat) / 100) * (12 / 10)

/-- The `predict_ltv` method: ensures a per-customer record exists, then
updates only the predicted_ltv entry inside it. -/
def predict_ltv (p : PredictiveAnalytics) (c : Customer) :
    PredictiveAnalytics × Rat :=
  let predicted := ltvScore c
  let pr :=
    if dictContains p.predictions c.id then p.predictions
    else dictSet p.predictions c.id []
  let rec0 := (dictGet pr c.id).getD []
  ({ predictions := dictSet pr c.id (dictSet rec0 "predicted_ltv" predicted) },
   predicted)

/-- Stage of a journey template: the `stage` and `action` strings. -/
abbrev Stage := String × String

/-- State of `JourneyOrchestrator`: templates and active enrollments.
An enrollment records only the journey name, no stage index. -/
structure JourneyOrchestrator where
  journeys : List (String × List Stage)
  active_journeys : List (String × String)
deriving DecidableEq, Repr

/-- The `define_journey` method: registers or overwrites a template. -/
def define_journey (j : JourneyOrchestrator) (name : String)
    (stages : List Stage) : JourneyOrchestrator :=
  { j with journeys := dictSet j.journeys name stages }

/-- The `enroll_customer` method: records the enrollment when the
journey name is registered, silently does nothing otherwise. -/
def enroll_customer (j : JourneyOrchestrator) (customer_id : String)
    (journey_name : String) : JourneyOrchestrator :=
  if dictContains j.journeys journey_name then
    { j with active_journeys := dictSet j.active_journeys customer_id journey_name }
  else j

/-- The `advance_journey` method: the source body only reads
`self.active_journeys` to emit a debug log line; it mutates nothing,
performs no range check and raises no error. -/
def advance_journey (j : JourneyOrchestrator) (customer_id : String)
    (stage : Nat) : JourneyOrchestrator :=
  let _ := customer_id
  let _ := stage
  j

/-- Consent entry: granted flag and timestamp. -/
structure ConsentEntry where
  granted : Bool
  timestamp : Int
deriving DecidableEq, Repr

/-- Deletion log entry appended by `process_deletion_request`. -/
structure DeletionEntry where
  customer_id : String
  processed_at : Int
deriving DecidableEq, Repr

/-- State of `PrivacyCompliance`. -/
structure PrivacyCompliance where
  consent_records : List (String × List (String × ConsentEntry))
  deletion_requests : List DeletionEntry
deriving DecidableEq, Repr

/-- The `record_consent` method: last-write-wins upsert per purpose. -/
def record_consent (now : Int) (pv : PrivacyCompliance)
    (customer_id purpose : String) (granted : Bool) : PrivacyCompliance :=
  let recs :=
    if dictContains pv.consent_records customer_id then pv.consent_records
    else dictSet pv.consent_records customer_id []
  let r := (dictGet recs customer_id).getD []
  let entry : ConsentEntry := { granted := granted, timestamp := now }
  { pv with consent_records :=
      dictSet recs customer_id (dictSet r purpose entry) }

/-- The `process_deletion_request` method: when the id is present in the
passed profile store it deletes the profile and appends one deletion
record; otherwise the body is skipped entirely. Nothing else is
touched. -/
def process_deletion_request (now : Int) (pv : PrivacyCompliance)
    (customer_id : String) (profiles : List (String × Customer)) :
    PrivacyCompliance × List (String × Customer) :=
  if dictContains profiles customer_id then
    ({ pv with deletion_requests :=
        pv.deletion_requests ++ [{ customer_id := customer_id, processed_at := now }] },
     dictErase profiles customer_id)
  else (pv, profiles)

/-- Composite state of `IntelligentCDP`. -/
structure IntelligentCDP where
  profile_engine : UnifiedProfileEngine
  segmentation : RealtimeSegmentation
  predictive : PredictiveAnalytics
  journey : JourneyOrchestrator
  privacy : PrivacyCompliance
deriving DecidableEq, Repr

/-- Deletion at platform level: the only deletion path the source
offers is calling `privacy.process_deletion_request(customer_id,
profile_engine.profiles)`, which mutates the passed profile dictionary
and the privacy deletion log; the segmentation index, prediction store
and journey orchestrator are not passed in and cannot change. -/
def cdpProcessDeletion (now : Int) (cdp : IntelligentCDP)
    (customer_id : String) : IntelligentCDP :=
  let (pv, profs) :=
    process_deletion_request now cdp.privacy customer_id
      cdp.profile_engine.profiles
  { cdp with
      privacy := pv
      profile_engine := { cdp.profile_engine with profiles := profs } }

/-- Convenience constructor for concrete customers: only the fields the
claims exercise vary, the rest take the dataclass defaults. -/
def mkCustomer (id : String) (ltv : Rat) (la : Option Int)
    (created : Int) : Customer :=
  { id := id
    email := id ++ "@example.com"
    name := id
    attributes := []
    events := []
    segments := []
    lifetime_value := ltv
    last_activity := la
    created_at := created }

/-- Concrete platform state for exercising deletion: customer c1 is in
the profile store, the HIGH_VALUE segment index, the prediction store
and enrolled in a journey. -/
def cdpStateC1 : IntelligentCDP :=
  { profile_engine :=
      { profiles := [("c1", mkCustomer "c1" 0 (some 0) 0)]
        identity_graph := [] }
    segmentation :=
      { segments := { SegmentIndex.empty with high_value := ["c1"] } }
    predictive := { predictions := [("c1", [("churn_risk", 0)])] }
    journey :=
      { journeys := [("onboarding", [("welcome", "send_email")])]
        active_journeys := [("c1", "onboarding")] }
    privacy := { consent_records := [], deletion_requests := [] } }

/-- Concrete customer for the prediction-record claims: one event, no
recorded activity (churn score 0), positive lifetime value. -/
def custC6 : Customer :=
  { mkCustomer "c6" 100 none 0 with events := [[("type", "purchase")]] }

/-- Concrete customer for the LTV claims: two events, lifetime value
100. -/
def custC8 : Customer :=
  { mkCustomer "c8" 100 none 0 with
      events := [[("type", "view")], [("type", "purchase")]] }

/-- Alias set stored in the identity graph under a canonical key (the
empty set when the key is unknown). -/
def aliasSet (e : UnifiedProfileEngine) (k : String) : List String :=
  (dictGet e.identity_graph k).getD []

/-- Concrete identity-graph state: two merges sharing the user alias u1
but keyed by different emails. -/
def engineC4 : UnifiedProfileEngine :=
  merge_identities
    (merge_identities { profiles := [], identity_graph := [] }
      "a@x.com" "u1" "d0")
    "b@y.com" "u1" "d1"

/-- Concrete journey state: a three-stage onboarding template with
customer c1 enrolled, the scenario of the advance claim. -/
def journeyC5 : JourneyOrchestrator :=
  enroll_customer
    (define_journey { journeys := [], active_journeys := [] } "onboarding"
      [("welcome", "send_email"), ("tutorial", "show_guide"),
       ("first_purchase", "offer_discount")])
    "c1" "onboarding"

/-- Concrete customer for the segmentation-index claim: zero lifetime
value, so the HIGH_VALUE rule does not hold. -/
def custC3 : Customer := mkCustomer "c1" 0 none 0

/-- Concrete segmentation state with a stale HIGH_VALUE entry for c1
left over from an earlier recomputation. -/
def engC3 : RealtimeSegmentation :=
  { segments := { SegmentIndex.empty with high_value := ["c1"] } }

/-! Helper lemmas about the dictionary model. -/

theorem dictGet_set_self {α : Type} (m : List (String × α)) (k : String)
    (v : α) : dictGet (dictSet m k v) k = some v := by
  induction m with
  | nil => simp [dictSet, dictGet]
  | cons p rest ih =>
      obtain ⟨k', v'⟩ := p
      by_cases h : k' = k
      · simp [dictSet, dictGet, h]
      · simp [dictSet, dictGet, h, ih]

theorem dictGet_set_ne {α : Type} (m : List (String × α)) (k k2 : String)
    (v : α) (h : k2 ≠ k) :
    dictGet (dictSet m k v) k2 = dictGet m k2 := by
  have h' : k ≠ k2 := Ne.symm h
  induction m with
  | nil => simp [dictSet, dictGet, h']
  | cons p rest ih =>
      obtain ⟨k', v'⟩ := p
      by_cases hk : k' = k
      · subst hk
        simp [dictSet, dictGet, h']
      · simp [dictSet, dictGet, hk, ih]

theorem dictGet_erase_self {α : Type} (m : List (String × α))
    (k : String) : dictGet (dictErase m k) k = none := by
  induction m with
  | nil => simp [dictErase, dictGet]
  | cons p rest ih =>
      obtain ⟨k', v'⟩ := p
      by_cases h : k' = k
      · simpa [dictErase, dictGet, h] using ih
      · simpa [dictErase, dictGet, h] using ih

theorem dictGet_erase_ne {α : Type} (m : List (String × α))
    (k k2 : String) (h : k2 ≠ k) :
    dictGet (dictErase m k) k2 = dictGet m k2 := by
  have h' : k ≠ k2 := Ne.symm h
  induction m with
  | nil => simp [dictErase, dictGet]
  | cons p rest ih =>
      obtain ⟨k', v'⟩ := p
      by_cases hk : k' = k
      · subst hk
        simpa [dictErase, dictGet, h'] using ih
      · by_cases hk2 : k' = k2
        · subst hk2
          simp [dictErase, dictGet, hk]
        · simpa [dictErase, dictGet, hk, hk2] using ih

theorem dictContains_erase_self {α : Type} (m : List (String × α))
    (k : String) : dictContains (dictErase m k) k = false := by
  simp [dictContains, dictGet_erase_self]

theorem dictContains_set_self {α : Type} (m : List (String × α))
    (k : String) (v : α) : dictContains (dictSet m k v) k = true := by
  simp [dictContains, dictGet_set_self]

theorem dictGet_none_of_not_contains {α : Type} (m : List (String × α))
    (k : String) (h : dictContains m k = false) : dictGet m k = none := by
  simpa [dictContains] using h

theorem mem_setInsert (s : List String) (a b : String) :
    a ∈ setInsert s b ↔ a ∈ s ∨ a = b := by
  by_cases h : b ∈ s
  · simp only [setInsert, if_pos h]
    constructor
    · exact Or.inl
    · rintro (hs | rfl)
      · exact hs
      · exact h
  · simp [setInsert, if_neg h]

/-! Helper lemmas about the identity-graph merge. -/

theorem aliasSet_merge_self (e : UnifiedProfileEngine)
    (email u d : String) (a : String) :
    a ∈ aliasSet (merge_identities e email u d) (md5Hex email)
      ↔ a ∈ aliasSet e (md5Hex email) ∨ a = email ∨ a = u ∨ a = d := by
  have hbase :
      (dictGet (if dictContains e.identity_graph (md5Hex email) then
          e.identity_graph
        else dictSet e.identity_graph (md5Hex email) [])
        (md5Hex email)).getD []
      = aliasSet e (md5Hex email) := by
    by_cases h : dictContains e.identity_graph (md5Hex email)
    · simp [aliasSet, h]
    · simp [aliasSet, h, dictGet_set_self,
        dictGet_none_of_not_contains _ _ (by simpa using h)]
  simp only [aliasSet, merge_identities, dictGet_set_self, Option.getD_some]
  rw [mem_setInsert, mem_setInsert, mem_setInsert, hbase]
  simp [aliasSet, or_assoc]

theorem aliasSet_merge_frame (e : UnifiedProfileEngine)
    (email u d k : String) (h : k ≠ md5Hex email) :
    aliasSet (merge_identities e email u d) k = aliasSet e k := by
  simp only [aliasSet, merge_identities]
  rw [dictGet_set_ne _ _ _ _ h]
  by_cases hc : dictContains e.identity_graph (md5Hex email)
  · simp [hc]
  · simp [hc, dictGet_set_ne _ _ _ _ h]

/-! Helper lemmas about segmentation. -/

theorem ruleHolds_update_segments (now : Int) (s : CustomerSegment)
    (c : Customer) (l : List CustomerSegment) :
    ruleHolds now s { c with segments := l } = ruleHolds now s c := by
  cases s <;> rfl

theorem get_put_self (idx : SegmentIndex) (s : CustomerSegment)
    (l : List String) : (idx.put s l).get s = l := by
  cases s <;> rfl

theorem get_put_ne (idx : SegmentIndex) (s t : CustomerSegment)
    (l : List String) (h : s ≠ t) : (idx.put t l).get s = idx.get s := by
  cases s <;> cases t <;> first
    | exact absurd rfl h
    | rfl

theorem mem_ruleOrder (s : CustomerSegment) : s ∈ ruleOrder := by
  cases s <;> simp [ruleOrder]

theorem segLoop_segments (now : Int) (L : List CustomerSegment)
    (eng : RealtimeSegmentation) (c : Customer)
    (l : List CustomerSegment) :
    (L.foldl (fun st t => segStep now t st)
        (eng, { c with segments := l })).2
      = { c with segments := l ++ L.filter (fun t => ruleHolds now t c) } := by
  induction L generalizing eng l with
  | nil => simp
  | cons t L ih =>
      rw [List.foldl_cons]
      by_cases h : ruleHolds now t c = true
      · have h2 : (segStep now t (eng, { c with segments := l })).2
            = { c with segments := l ++ [t] } := by
          simp [segStep, ruleHolds_update_segments, h]
        have h3 : segStep now t (eng, { c with segments := l })
            = ((segStep now t (eng, { c with segments := l })).1,
               { c with segments := l ++ [t] }) := by
          rw [← h2]
        rw [h3, ih]
        simp [h, List.filter_cons]
      · have h2 : segStep now t (eng, { c with segments := l })
            = (eng, { c with segments := l }) := by
          simp [segStep, ruleHolds_update_segments, h]
        rw [h2, ih]
        simp [h, List.filter_cons]

theorem segLoop_count (now : Int) (L : List CustomerSegment)
    (eng : RealtimeSegmentation) (c : Customer)
    (l : List CustomerSegment) (s : CustomerSegment) :
    List.count c.id
        ((L.foldl (fun st t => segStep now t st)
          (eng, { c with segments := l })).1.segments.get s)
      = List.count c.id (eng.segments.get s)
        + (if s ∈ L ∧ ruleHolds now s c = true
              ∧ c.id ∉ eng.segments.get s then 1 else 0) := by
  induction L generalizing eng l with
  | nil => simp
  | cons t L ih =>
      rw [List.foldl_cons]
      by_cases h : ruleHolds now t c = true
      · by_cases hmem : c.id ∈ eng.segments.get t
        · have h2 : segStep now t (eng, { c with segments := l })
              = (eng, { c with segments := l ++ [t] }) := by
            simp [segStep, ruleHolds_update_segments, h, hmem]
          rw [h2, ih]
          by_cases hst : s = t
          · subst hst
            simp [h, hmem]
          · simp [hst]
        · have h2 : segStep now t (eng, { c with segments := l })
              = ({ segments :=
                    eng.segments.put t (eng.segments.get t ++ [c.id]) },
                 { c with segments := l ++ [t] }) := by
            simp [segStep, ruleHolds_update_segments, h, hmem]
          rw [h2, ih]
          by_cases hst : s = t
          · subst hst
            rw [get_put_self]
            have h0 : List.count c.id (eng.segments.get s) = 0 :=
              List.count_eq_zero.mpr hmem
            have h1 : c.id ∈ eng.segments.get s ++ [c.id] := by simp
            simp [List.count_append, h0, h, hmem, h1]
          · rw [get_put_ne _ _ _ _ hst]
            simp [hst]
      · have h2 : segStep now t (eng, { c with segments := l })
            = (eng, { c with segments := l }) := by
          simp [segStep, ruleHolds_update_segments, h]
        rw [h2, ih]
        by_cases hst : s = t
        · subst hst
          simp [h]
        · simp [hst]

/-! Claim theorems. -/

/-- C10: create_profile is a total upsert: it stores the customer under
its id and returns the id, silently replacing any existing profile with
that id, and leaves every other binding of the profile store and the
identity graph unchanged. -/
theorem create_profile_upsert (e : UnifiedProfileEngine) (c : Customer) :
    (create_profile e c).2 = c.id ∧
    dictGet (create_profile e c).1.profiles c.id = some c ∧
    (∀ k, k ≠ c.id →
      dictGet (create_profile e c).1.profiles k = dictGet e.profiles k) ∧
    (create_profile e c).1.identity_graph = e.identity_graph := by
  refine ⟨rfl, ?_, ?_, rfl⟩
  · simpa [create_profile] using dictGet_set_self e.profiles c.id c
  · intro k hk
    simpa [create_profile] using dictGet_set_ne e.profiles c.id k c hk

/-- C10 witness: a concrete upsert over an existing profile under the
same id, with an unrelated profile left untouched. -/
theorem create_profile_upsert_witness :
    (create_profile
        { profiles := [("c1", mkCustomer "c1" 0 none 0),
                       ("c2", mkCustomer "c2" 5 none 0)]
          identity_graph := [] }
        (mkCustomer "c1" 777 none 0)).2 = "c1" ∧
    dictGet (create_profile
        { profiles := [("c1", mkCustomer "c1" 0 none 0),
                       ("c2", mkCustomer "c2" 5 none 0)]
          identity_graph := [] }
        (mkCustomer "c1" 777 none 0)).1.profiles "c1"
      = some (mkCustomer "c1" 777 none 0) ∧
    dictGet (create_profile
        { profiles := [("c1", mkCustomer "c1" 0 none 0),
                       ("c2", mkCustomer "c2" 5 none 0)]
          identity_graph := [] }
        (mkCustomer "c1" 777 none 0)).1.profiles "c2"
      = some (mkCustomer "c2" 5 none 0) := by
  have h := create_profile_upsert
    { profiles := [("c1", mkCustomer "c1" 0 none 0),
                   ("c2", mkCustomer "c2" 5 none 0)]
      identity_graph := [] }
    (mkCustomer "c1" 777 none 0)
  refine ⟨h.1, ?_, ?_⟩
  · simpa [mkCustomer] using h.2.1
  · have h2 := h.2.2.1 "c2" (by decide)
    simp only [h2]
    decide

/-- C9: deletion is idempotent. Processing a deletion for an absent id
returns the state unchanged; a second call right after any first call is
always a no-op (the id is gone after the first call); and when the id
was present, exactly one deletion record is appended in total. -/
theorem process_deletion_idempotent (now now2 : Int)
    (pv : PrivacyCompliance) (profiles : List (String × Customer))
    (cid : String) :
    (dictContains profiles cid = false →
      process_deletion_request now pv cid profiles = (pv, profiles)) ∧
    process_deletion_request now2
        (process_deletion_request now pv cid profiles).1 cid
        (process_deletion_request now pv cid profiles).2
      = process_deletion_request now pv cid profiles ∧
    (dictContains profiles cid = true →
      (process_deletion_request now pv cid profiles).1.deletion_requests
        = pv.deletion_requests
          ++ [{ customer_id := cid, processed_at := now }]) := by
  refine ⟨?_, ?_, ?_⟩
  · intro h
    simp [process_deletion_request, h]
  · by_cases h : dictContains profiles cid
    · simp [process_deletion_request, h, dictContains_erase_self]
    · simp [process_deletion_request, h]
  · intro h
    simp [process_deletion_request, h]

/-- C9 witness: a concrete present-then-absent double deletion yielding
one deletion record, and a concrete absent-id no-op. -/
theorem process_deletion_idempotent_witness :
    process_deletion_request 7 { consent_records := [], deletion_requests := [] }
        "nobody" [] = ({ consent_records := [], deletion_requests := [] }, []) ∧
    (process_deletion_request 5
        { consent_records := [], deletion_requests := [] } "c1"
        [("c1", mkCustomer "c1" 0 none 0)]).1.deletion_requests
      = [{ customer_id := "c1", processed_at := 5 }] ∧
    process_deletion_request 6
        (process_deletion_request 5
          { consent_records := [], deletion_requests := [] } "c1"
          [("c1", mkCustomer "c1" 0 none 0)]).1 "c1"
        (process_deletion_request 5
          { consent_records := [], deletion_requests := [] } "c1"
          [("c1", mkCustomer "c1" 0 none 0)]).2
      = process_deletion_request 5
          { consent_records := [], deletion_requests := [] } "c1"
          [("c1", mkCustomer "c1" 0 none 0)] := by
  have ha := process_deletion_idempotent 7 8
    { consent_records := [], deletion_requests := [] } [] "nobody"
  have hb := process_deletion_idempotent 5 6
    { consent_records := [], deletion_requests := [] }
    [("c1", mkCustomer "c1" 0 none 0)] "c1"
  refine ⟨ha.1 (by decide), ?_, hb.2.1⟩
  simpa using hb.2.2 (by decide)

/-- C1 counterexample: deletion does NOT cascade. Deleting c1 from the
concrete state removes the profile (the 360 view becomes not-found) and
logs one deletion record, but c1 remains in the HIGH_VALUE segment
index, keeps its prediction record, and stays enrolled in its journey
(no WITHDRAWN state exists in the code), contradicting the claim that
the id appears in no segment index afterwards. -/
theorem process_deletion_no_cascade_counterexample :
    get_360_view (cdpProcessDeletion 100 cdpStateC1 "c1").profile_engine "c1"
      = none ∧
    (cdpProcessDeletion 100 cdpStateC1 "c1").privacy.deletion_requests
      = [{ customer_id := "c1", processed_at := 100 }] ∧
    "c1" ∈ (cdpProcessDeletion 100 cdpStateC1
        "c1").segmentation.segments.get CustomerSegment.HIGH_VALUE ∧
    dictContains (cdpProcessDeletion 100 cdpStateC1
        "c1").predictive.predictions "c1" = true ∧
    dictGet (cdpProcessDeletion 100 cdpStateC1
        "c1").journey.active_journeys "c1" = some "onboarding" := by
  decide

/-- C1 amended: deleting a present id removes the customer from the
profile store (so the 360 view returns not-found) and appends exactly
one deletion record, but leaves the segmentation index, the prediction
store, the journey orchestrator, the identity graph and the consent
records entirely unchanged. -/
theorem process_deletion_profile_only (now : Int) (cdp : IntelligentCDP)
    (cid : String)
    (h : dictContains cdp.profile_engine.profiles cid = true) :
    dictGet (cdpProcessDeletion now cdp cid).profile_engine.profiles cid
      = none ∧
    get_360_view (cdpProcessDeletion now cdp cid).profile_engine cid
      = none ∧
    (cdpProcessDeletion now cdp cid).privacy.deletion_requests
      = cdp.privacy.deletion_requests
        ++ [{ customer_id := cid, processed_at := now }] ∧
    (cdpProcessDeletion now cdp cid).segmentation = cdp.segmentation ∧
    (cdpProcessDeletion now cdp cid).predictive = cdp.predictive ∧
    (cdpProcessDeletion now cdp cid).journey = cdp.journey ∧
    (cdpProcessDeletion now cdp cid).profile_engine.identity_graph
      = cdp.profile_engine.identity_graph ∧
    (cdpProcessDeletion now cdp cid).privacy.consent_records
      = cdp.privacy.consent_records := by
  refine ⟨?_, ?_, ?_, ?_, ?_, ?_, ?_, ?_⟩ <;>
    simp [cdpProcessDeletion, process_deletion_request, h, get_360_view,
      dictGet_erase_self]

/-- C1 amended witness: the amended behaviour evaluated on the concrete
deletion state. -/
theorem process_deletion_profile_only_witness :
    dictGet (cdpProcessDeletion 100 cdpStateC1
        "c1").profile_engine.profiles "c1" = none ∧
    (cdpProcessDeletion 100 cdpStateC1 "c1").segmentation
      = cdpStateC1.segmentation ∧
    (cdpProcessDeletion 100 cdpStateC1 "c1").predictive
      = cdpStateC1.predictive ∧
    (cdpProcessDeletion 100 cdpStateC1 "c1").journey
      = cdpStateC1.journey := by
  have h := process_deletion_profile_only 100 cdpStateC1 "c1" (by decide)
  exact ⟨h.1, h.2.2.2.1, h.2.2.2.2.1, h.2.2.2.2.2.1⟩

/-- C6 counterexample: calling predict_ltv and then predict_churn does
NOT leave both entries. On the concrete customer, predict_churn replaces
the whole per-customer record with a singleton churn_risk dictionary, so
the predicted_ltv entry written by the first call is gone. -/
theorem predict_churn_clobbers_ltv_counterexample :
    dictGet ((predict_churn 0 (predict_ltv { predictions := [] } custC6).1
        custC6).1.predictions) "c6" = some [("churn_risk", 0)] ∧
    dictGet ((dictGet ((predict_churn 0
        (predict_ltv { predictions := [] } custC6).1
        custC6).1.predictions) "c6").getD []) "predicted_ltv" = none := by
  constructor <;> decide

/-- C6 amended: the two prediction calls are asymmetric. predict_ltv
updates only its own metric inside the existing record, so churn-then-
ltv leaves both entries; predict_churn replaces the customer's whole
record with a singleton churn_risk dictionary, so ltv-then-churn drops
the predicted_ltv entry. -/
theorem prediction_record_overwrite (now : Int) (p : PredictiveAnalytics)
    (c : Customer) :
    dictGet (predict_ltv (predict_churn now p c).1 c).1.predictions c.id
      = some [("churn_risk", churnScore now c),
              ("predicted_ltv", ltvScore c)] ∧
    dictGet (predict_churn now (predict_ltv p c).1 c).1.predictions c.id
      = some [("churn_risk", churnScore now c)] := by
  have hne : ("churn_risk" : String) ≠ "predicted_ltv" := by decide
  constructor
  · simp [predict_churn, predict_ltv, dictContains_set_self,
      dictGet_set_self, dictSet, hne]
  · simp [predict_churn, dictGet_set_self]

/-- C7 counterexample: the churn score is not always within the interval
from 0 to 1. For a customer whose last_activity lies one day after the
evaluation clock, days_inactive is -1 and the returned score is
negative. -/
theorem predict_churn_range_counterexample :
    (predict_churn 0 { predictions := [] }
        (mkCustomer "c7" 0 (some 86400) 0)).2 < 0 := by
  show churnScore 0 (mkCustomer "c7" 0 (some 86400) 0) < 0
  have hd : daysBetween 0 86400 = -1 := by decide
  unfold churnScore
  simp only [mkCustomer, hd]
  have hle : ((-1 : Int) : Rat) / 90 ≤ 1 := by push_cast; norm_num
  rw [min_eq_right hle]
  push_cast
  norm_num

/-- C7 amended: predict_churn returns min(1, days_inactive / 90) when
last_activity is present and 0 when absent; the score never exceeds 1,
is non-negative whenever last_activity is not in the future of the
evaluation clock, and is monotonically non-decreasing in the number of
days since last activity. -/
theorem predict_churn_formula_bounds_monotone (now : Int)
    (p : PredictiveAnalytics) (c : Customer) :
    (∀ la, c.last_activity = some la →
      (predict_churn now p c).2 = min 1 ((daysBetween now la : Rat) / 90)) ∧
    (c.last_activity = none → (predict_churn now p c).2 = 0) ∧
    (predict_churn now p c).2 ≤ 1 ∧
    (∀ la, c.last_activity = some la → la ≤ now →
      0 ≤ (predict_churn now p c).2) ∧
    (∀ la la', daysBetween now la ≤ daysBetween now la' →
      (predict_churn now p { c with last_activity := some la }).2
        ≤ (predict_churn now p { c with last_activity := some la' }).2) := by
  refine ⟨?_, ?_, ?_, ?_, ?_⟩
  · intro la h
    simp [predict_churn, churnScore, h]
  · intro h
    simp [predict_churn, churnScore, h]
  · show churnScore now c ≤ 1
    unfold churnScore
    cases c.last_activity with
    | none => norm_num
    | some la => exact min_le_left _ _
  · intro la h hle
    show (0 : Rat) ≤ churnScore now c
    unfold churnScore
    rw [h]
    have hd : (0 : Int) ≤ daysBetween now la :=
      Int.fdiv_nonneg (by omega) (by norm_num)
    have hq : (0 : Rat) ≤ (daysBetween now la : Rat) / 90 := by
      have : (0 : Rat) ≤ (daysBetween now la : Rat) := by exact_mod_cast hd
      positivity
    exact le_min (by norm_num) hq
  · intro la la' hle
    show churnScore now { c with last_activity := some la }
        ≤ churnScore now { c with last_activity := some la' }
    unfold churnScore
    simp only
    refine min_le_min le_rfl ?_
    have h90 : (0 : Rat) < 90 := by norm_num
    exact (div_le_div_iff_of_pos_right h90).mpr (by exact_mod_cast hle)

/-- C7 witness: the amended behaviour evaluated at a 45-days-inactive
customer (score one half) and a monotonicity instance. -/
theorem predict_churn_formula_witness :
    (predict_churn 3888000 { predictions := [] }
        (mkCustomer "x" 0 (some 0) 0)).2
      = min 1 ((daysBetween 3888000 0 : Rat) / 90) ∧
    0 ≤ (predict_churn 3888000 { predictions := [] }
        (mkCustomer "x" 0 (some 0) 0)).2 ∧
    (predict_churn 3888000 { predictions := [] }
        { mkCustomer "x" 0 (some 0) 0 with last_activity := some 0 }).2
      ≤ (predict_churn 3888000 { predictions := [] }
        { mkCustomer "x" 0 (some 0) 0 with
            last_activity := some (-86400) }).2 := by
  have h := predict_churn_formula_bounds_monotone 3888000
    { predictions := [] } (mkCustomer "x" 0 (some 0) 0)
  exact ⟨h.1 0 rfl, h.2.2.2.1 0 rfl (by decide),
    h.2.2.2.2 0 (-86400) (by decide)⟩

/-- C8: predict_ltv computes lifetime_value multiplied by one plus a
hundredth of the event count, times 1.2, and for a non-negative lifetime
value (the event count is a list length, hence non-negative) the result
is at least the lifetime value. -/
theorem predict_ltv_lower_bound (p : PredictiveAnalytics) (c : Customer)
    (h : 0 ≤ c.lifetime_value) :
    (predict_ltv p c).2
      = c.lifetime_value * (1 + (c.events.length : Rat) / 100) * (12 / 10) ∧
    c.lifetime_value ≤ (predict_ltv p c).2 := by
  constructor
  · rfl
  · show c.lifetime_value ≤ ltvScore c
    unfold ltvScore
    have he : (0 : Rat) ≤ (c.events.length : Rat) := by positivity
    nlinarith [h, he, mul_nonneg h he]

/-- C8 witness: the formula and the lower bound evaluated on the
concrete two-event customer with lifetime value 100. -/
theorem predict_ltv_lower_bound_witness :
    (0 : Rat) ≤ custC8.lifetime_value ∧
    (predict_ltv { predictions := [] } custC8).2
      = custC8.lifetime_value * (1 + (custC8.events.length : Rat) / 100)
          * (12 / 10) ∧
    custC8.lifetime_value ≤ (predict_ltv { predictions := [] } custC8).2 := by
  have h := predict_ltv_lower_bound { predictions := [] } custC8
    (by decide)
  exact ⟨by decide, h.1, h.2⟩

/-- C4 counterexample: identity merges keyed by different emails never
unify. After merging (a@x.com, u1, d0) and then (b@y.com, u1, d1) the
graph holds TWO canonical keys, the shared alias u1 sits in both alias
sets (so the alias sets are not a partition), and no key holds both
a@x.com and d1 — there is no single canonical key with alias set
containing a@x.com, u1 and d1 as the claim requires. -/
theorem merge_identities_counterexample :
    engineC4.identity_graph.length = 2 ∧
    "u1" ∈ aliasSet engineC4 (md5Hex "a@x.com") ∧
    "u1" ∈ aliasSet engineC4 (md5Hex "b@y.com") ∧
    md5Hex "a@x.com" ≠ md5Hex "b@y.com" ∧
    engineC4.identity_graph.all
      (fun p => !("a@x.com" ∈ p.2 && "d1" ∈ p.2)) = true := by
  decide

/-- C4 amended: merging is order-independent only within one email key.
Two merge_identities calls with the same email produce, in either order,
the same alias set: the union of the previous set with the five merged
aliases; and a merge never touches any canonical key other than the one
derived from its email, so merges under distinct emails keep their alias
sets separate even when they share a non-email alias. -/
theorem merge_identities_union (e : UnifiedProfileEngine)
    (email u d u2 d2 k : String) :
    (∀ a, a ∈ aliasSet (merge_identities (merge_identities e email u d)
          email u2 d2) (md5Hex email)
       ↔ a ∈ aliasSet (merge_identities (merge_identities e email u2 d2)
          email u d) (md5Hex email)) ∧
    (∀ a, a ∈ aliasSet (merge_identities (merge_identities e email u d)
          email u2 d2) (md5Hex email)
       ↔ (a ∈ aliasSet e (md5Hex email) ∨ a = email ∨ a = u ∨ a = d
          ∨ a = u2 ∨ a = d2)) ∧
    (k ≠ md5Hex email →
      aliasSet (merge_identities e email u d) k = aliasSet e k) := by
  have h1 : ∀ a, a ∈ aliasSet (merge_identities (merge_identities e email u d)
      email u2 d2) (md5Hex email)
      ↔ (a ∈ aliasSet e (md5Hex email) ∨ a = email ∨ a = u ∨ a = d
         ∨ a = u2 ∨ a = d2) := by
    intro a
    rw [aliasSet_merge_self, aliasSet_merge_self]
    tauto
  have h2 : ∀ a, a ∈ aliasSet (merge_identities (merge_identities e email u2 d2)
      email u d) (md5Hex email)
      ↔ (a ∈ aliasSet e (md5Hex email) ∨ a = email ∨ a = u ∨ a = d
         ∨ a = u2 ∨ a = d2) := by
    intro a
    rw [aliasSet_merge_self, aliasSet_merge_self]
    tauto
  exact ⟨fun a => (h1 a).trans (h2 a).symm, h1,
    fun h => aliasSet_merge_frame e email u d k h⟩

/-- C4 amended witness: the union characterisation and the frame
property evaluated on concrete merges. -/
theorem merge_identities_union_witness :
    ("u1" ∈ aliasSet (merge_identities (merge_identities
        { profiles := [], identity_graph := [] } "a@x.com" "u1" "d0")
        "a@x.com" "u2" "d1") (md5Hex "a@x.com")
      ↔ ("u1" ∈ aliasSet { profiles := [], identity_graph := [] }
            (md5Hex "a@x.com") ∨ "u1" = "a@x.com" ∨ "u1" = "u1"
          ∨ "u1" = "d0" ∨ "u1" = "u2" ∨ "u1" = "d1")) ∧
    aliasSet (merge_identities { profiles := [], identity_graph := [] }
        "a@x.com" "u1" "d0") (md5Hex "b@y.com")
      = aliasSet { profiles := [], identity_graph := [] }
          (md5Hex "b@y.com") := by
  have h := merge_identities_union { profiles := [], identity_graph := [] }
    "a@x.com" "u1" "d0" "u2" "d1" (md5Hex "b@y.com")
  exact ⟨h.2.1 "u1", h.2.2 (by decide)⟩

/-- C5 counterexample: on the concrete three-stage onboarding state,
advancing c1 to stage 3 leaves the orchestrator unchanged — c1 is still
enrolled (no COMPLETED transition and no un-enrollment happens) — and
the subsequent advance to stage 0 is again the unchanged state rather
than a NotFound failure; the code has no error channel at all. -/
theorem advance_journey_counterexample :
    advance_journey journeyC5 "c1" 3 = journeyC5 ∧
    dictGet (advance_journey journeyC5 "c1" 3).active_journeys "c1"
      = some "onboarding" ∧
    advance_journey (advance_journey journeyC5 "c1" 3) "c1" 0
      = advance_journey journeyC5 "c1" 3 := by
  refine ⟨rfl, by decide, rfl⟩

/-- C5 amended: advance_journey mutates nothing and never fails, for
every orchestrator state, customer and target stage — enrolled or not,
in range or not. Enrollments record only the journey name, so no stage
index is ever set and nothing transitions to COMPLETED. -/
theorem advance_journey_noop (j : JourneyOrchestrator)
    (customer_id : String) (stage : Nat) :
    advance_journey j customer_id stage = j := by
  rfl

/-- C2: recomputing segmentation yields exactly the five independent
rules evaluated against the profile and the clock: HIGH_VALUE iff
lifetime_value exceeds 10000, AT_RISK iff last_activity is present and
whole days since it exceed 30, DORMANT likewise with 90, NEW iff whole
days since created_at are below 30, ACTIVE iff last_activity is present
and whole days since it are below 7; rules over an absent last_activity
are false, and the rules are not mutually exclusive. -/
theorem segmentation_rules (now : Int) (eng : RealtimeSegmentation)
    (c : Customer) :
    (CustomerSegment.HIGH_VALUE ∈ (segment_customer now eng c).2.segments
       ↔ 10000 < c.lifetime_value) ∧
    (CustomerSegment.AT_RISK ∈ (segment_customer now eng c).2.segments
       ↔ ∃ la, c.last_activity = some la ∧ 30 < daysBetween now la) ∧
    (CustomerSegment.DORMANT ∈ (segment_customer now eng c).2.segments
       ↔ ∃ la, c.last_activity = some la ∧ 90 < daysBetween now la) ∧
    (CustomerSegment.NEW ∈ (segment_customer now eng c).2.segments
       ↔ daysBetween now c.created_at < 30) ∧
    (CustomerSegment.ACTIVE ∈ (segment_customer now eng c).2.segments
       ↔ ∃ la, c.last_activity = some la ∧ daysBetween now la < 7) := by
  have hseg : (segment_customer now eng c).2.segments
      = ruleOrder.filter (fun t => ruleHolds now t c) := by
    have h := segLoop_segments now ruleOrder eng c []
    calc (segment_customer now eng c).2.segments
        = (ruleOrder.foldl (fun st t => segStep now t st)
            (eng, { c with segments := [] })).2.segments := rfl
      _ = ruleOrder.filter (fun t => ruleHolds now t c) := by
          rw [h]
          simp
  refine ⟨?_, ?_, ?_, ?_, ?_⟩ <;> rw [hseg] <;>
    cases hla : c.last_activity <;>
      simp [List.mem_filter, ruleOrder, ruleHolds, hla]

/-- C3 counterexample: stale reverse-index membership survives
recomputation. On the concrete state the HIGH_VALUE index already holds
c1; after segment_customer the id is still there although the HIGH_VALUE
rule does not hold for the zero-lifetime-value customer. -/
theorem segment_index_stale_counterexample :
    "c1" ∈ ((segment_customer 0 engC3 custC3).1).segments.get
        CustomerSegment.HIGH_VALUE ∧
    ¬ (10000 < custC3.lifetime_value) := by
  decide

/-- C3 amended: after segment_customer(c), the reverse index under a
segment contains c.id iff the rule holds now OR c.id was already present
(stale membership is NOT removed); the call itself never introduces a
duplicate: the multiplicity of c.id grows by one exactly when the rule
holds and the id was absent, and is unchanged otherwise. -/
theorem segment_index_after (now : Int) (eng : RealtimeSegmentation)
    (c : Customer) (s : CustomerSegment) :
    (c.id ∈ ((segment_customer now eng c).1).segments.get s
       ↔ (ruleHolds now s c = true ∨ c.id ∈ eng.segments.get s)) ∧
    List.count c.id (((segment_customer now eng c).1).segments.get s)
      = List.count c.id (eng.segments.get s)
        + (if ruleHolds now s c = true ∧ c.id ∉ eng.segments.get s
            then 1 else 0) := by
  have hmem : s ∈ ruleOrder := mem_ruleOrder s
  have hcount : List.count c.id
        (((segment_customer now eng c).1).segments.get s)
      = List.count c.id (eng.segments.get s)
        + (if ruleHolds now s c = true ∧ c.id ∉ eng.segments.get s
            then 1 else 0) := by
    have hc := segLoop_count now ruleOrder eng c [] s
    simpa [segment_customer, hmem] using hc
  refine ⟨?_, hcount⟩
  rw [← List.count_pos_iff, hcount]
  by_cases hr : ruleHolds now s c = true
  · by_cases hm : c.id ∈ eng.segments.get s
    · have hp : 0 < List.count c.id (eng.segments.get s) :=
        List.count_pos_iff.mpr hm
      simp [hr, hm, hp]
    · simp [hr, hm]
  · by_cases hm : c.id ∈ eng.segments.get s
    · have hp : 0 < List.count c.id (eng.segments.get s) :=
        List.count_pos_iff.mpr hm
      simp [hr, hm, hp]
    · have hz : List.count c.id (eng.segments.get s) = 0 :=
        List.count_eq_zero.mpr hm
      simp [hr, hm, hz]

end CDP
